import Mathlib

/-
Verification of the Skyward scraping engine (SkywardPuppeteerClient).

The definitions below are a shallow embedding of the TypeScript source:
pages are modelled as lists of tables of rows of cells (with pixel
coordinates as integers and computed background colors as strings),
the JavaScript regular expressions used by the scraper are translated
into executable character-level matchers, and the extraction strategies,
the course merge, the post-extraction tail of scrapeGrades, the login
success/failure decision of testConnection, and the waitForTurn and
releaseTurn operation queue are translated into pure Lean functions and
a transition system.
-/

namespace Skyward

/-! ## JavaScript string and regex primitives -/

/-- JavaScript whitespace characters relevant to the `\s` regex class
(space, tab, newline, carriage return, vertical tab, form feed). -/
def jsWs (c : Char) : Bool :=
  c == ' ' || c == '\t' || c == '\n' || c == '\r' || c == '\x0b' || c == '\x0c'

/-- Regex class `[A-Z]`. -/
def isUpperCh (c : Char) : Bool := 'A' ≤ c && c ≤ 'Z'

/-- Regex class `[a-z]`. -/
def isLowerCh (c : Char) : Bool := 'a' ≤ c && c ≤ 'z'

/-- Regex class `[0-9]` (JavaScript `\d`). -/
def isDigitCh (c : Char) : Bool := '0' ≤ c && c ≤ '9'

/-- Regex class `[A-Za-z]`. -/
def isAlphaCh (c : Char) : Bool := isUpperCh c || isLowerCh c

/-- Regex class `[A-F]`: a letter-grade initial. -/
def isAF (c : Char) : Bool := 'A' ≤ c && c ≤ 'F'

/-- JavaScript `String.prototype.trim`: drop leading and trailing whitespace. -/
def trimStr (s : String) : String :=
  ⟨((s.data.dropWhile jsWs).reverse.dropWhile jsWs).reverse⟩

/-- JavaScript `.replace(/[\s]/g, '')`: remove every whitespace character. -/
def stripWs (s : String) : String := ⟨s.data.filter (fun c => !jsWs c)⟩

/-- JavaScript `.replace(/\s+/g, ' ')`: collapse every whitespace run to one
space.  A whitespace character followed by another whitespace character is
dropped; the last character of each run becomes a single space. -/
def squeezeList : List Char → List Char
  | [] => []
  | [c] => if jsWs c then [' '] else [c]
  | c :: d :: rest =>
    if jsWs c && jsWs d then squeezeList (d :: rest)
    else (if jsWs c then ' ' else c) :: squeezeList (d :: rest)

/-- JavaScript `.replace(/\s+/g, ' ')` on a string. -/
def squeezeWs (s : String) : String := ⟨squeezeList s.data⟩

/-- JavaScript `String.prototype.toLowerCase` (ASCII fragment). -/
def lowerStr (s : String) : String := ⟨s.data.map Char.toLower⟩

/-- JavaScript `String.prototype.toUpperCase` (ASCII fragment). -/
def upperStr (s : String) : String := ⟨s.data.map Char.toUpper⟩

/-- Whether `pat` is a prefix of `s` (character lists). -/
def isPrefixL : List Char → List Char → Bool
  | [], _ => true
  | _ :: _, [] => false
  | a :: as, b :: bs => a == b && isPrefixL as bs

/-- Whether `pat` occurs as a contiguous substring of `s` (character lists). -/
def containsL (pat : List Char) : List Char → Bool
  | [] => isPrefixL pat []
  | c :: rest => isPrefixL pat (c :: rest) || containsL pat rest

/-- JavaScript `String.prototype.includes`. -/
def strContains (s pat : String) : Bool := containsL pat.data s.data

/-- Case-insensitive substring test (used for `/.../i` searches). -/
def containsCI (s pat : String) : Bool := strContains (lowerStr s) (lowerStr pat)

/-- First match of the search regex `([A-F][+-]?)`: scan left to right for a
letter A-F, greedily take one following `+` or `-` when present. -/
def findGrade : List Char → Option String
  | [] => none
  | c :: rest =>
    if isAF c then
      match rest with
      | d :: _ => if d == '+' || d == '-' then some ⟨[c, d]⟩ else some ⟨[c]⟩
      | [] => some ⟨[c]⟩
    else findGrade rest

/-- The anchored regex `^[A-F][+-]?$`. -/
def gradeExact (s : String) : Bool :=
  match s.data with
  | [c] => isAF c
  | [c, d] => isAF c && (d == '+' || d == '-')
  | _ => false

/-- The case-insensitive reject list `^(Q[1-4]|Grade|Period|Teacher|Total|Average)$/i`
applied to a candidate course name in strategy 1. -/
def isNonCourseLabel (s : String) : Bool :=
  let l := lowerStr s
  l == "q1" || l == "q2" || l == "q3" || l == "q4" ||
  l == "grade" || l == "period" || l == "teacher" || l == "total" || l == "average"

/-- Strategy 2 course-name shape `^[A-Z][A-Za-z\s\d]+$`. -/
def nameShape2 (s : String) : Bool :=
  match s.data with
  | [] => false
  | c :: rest =>
    isUpperCh c && !rest.isEmpty && rest.all (fun d => isAlphaCh d || jsWs d || isDigitCh d)

/-- Course block first-row shape `^[A-Z][A-Z\s\d]+$` (all-caps course name). -/
def allCapsName (s : String) : Bool :=
  match s.data with
  | [] => false
  | c :: rest =>
    isUpperCh c && !rest.isEmpty && rest.all (fun d => isUpperCh d || jsWs d || isDigitCh d)

/-- Course block third-row shape `^[A-Z][A-Z\s]+$` (all-caps teacher name). -/
def allCapsTeacher (s : String) : Bool :=
  match s.data with
  | [] => false
  | c :: rest =>
    isUpperCh c && !rest.isEmpty && rest.all (fun d => isUpperCh d || jsWs d)

/-- Whether the search regex `Period\s*\d+/i` matches starting at this position. -/
def periodAt (s : List Char) : Bool :=
  if isPrefixL "period".data ((⟨s⟩ : String) |> lowerStr).data then
    match (s.drop 6).dropWhile jsWs with
    | d :: _ => isDigitCh d
    | [] => false
  else false

/-- The search regex `Period\s*\d+/i`: match at some position. -/
def periodMatch : List Char → Bool
  | [] => false
  | c :: rest => periodAt (c :: rest) || periodMatch rest

/-- Attempt to match `[A-Z]+\s+[A-Z]\.?\s+[A-Z]+` at the head of `s`;
return the matched characters.  The character classes of neighbouring
regex atoms are disjoint, so greedy matching without backtracking agrees
with the JavaScript engine. -/
def nameAt (s : List Char) : Option (List Char) :=
  let u1 := s.takeWhile isUpperCh
  let r1 := s.dropWhile isUpperCh
  if u1.isEmpty then none else
  let w1 := r1.takeWhile jsWs
  let r2 := r1.dropWhile jsWs
  if w1.isEmpty then none else
  match r2 with
  | [] => none
  | m :: r3 =>
    if !isUpperCh m then none else
    let (dot, r4) := match r3 with
      | '.' :: r4 => ([('.' : Char)], r4)
      | _ => ([], r3)
    let w2 := r4.takeWhile jsWs
    let r5 := r4.dropWhile jsWs
    if w2.isEmpty then none else
    let u2 := r5.takeWhile isUpperCh
    if u2.isEmpty then none else
    some (u1 ++ w1 ++ [m] ++ dot ++ w2 ++ u2)

/-- Leftmost match of the student-name regex `([A-Z]+\s+[A-Z]\.?\s+[A-Z]+)`. -/
def findName : List Char → Option String
  | [] => none
  | c :: rest =>
    match nameAt (c :: rest) with
    | some m => some ⟨m⟩
    | none => findName rest

/-- Characters strictly before the first `)` of `s`, provided a `)` exists
(the `[^)]*...[^)]*\)` tail of the school regex). -/
def untilCloseParen : List Char → Option (List Char)
  | [] => none
  | c :: rest =>
    if c == ')' then some []
    else (untilCloseParen rest).map (fun l => c :: l)

/-- Leftmost match of the school regex `\(([^)]*(?:CANYON|HIGH)[^)]*)\)/i`,
returning the captured group: the text between a `(` and the following `)`
when it contains CANYON or HIGH case-insensitively. -/
def findSchool : List Char → Option String
  | [] => none
  | c :: rest =>
    (if c == '(' then
      match untilCloseParen rest with
      | some inside =>
        if containsCI ⟨inside⟩ "canyon" || containsCI ⟨inside⟩ "high" then some (⟨inside⟩ : String)
        else none
      | none => none
    else none).orElse (fun _ => findSchool rest)

/-- JavaScript truthiness of a `string | null` value: `null` and `''` are falsy. -/
def jsTruthy : Option String → Bool
  | none => false
  | some s => s != ""

/-! ## DOM model

A page is modelled as the data the extraction scripts read from the DOM:
the tables (each a list of rows of cells), every cell carrying its tag
(`th` or `td`), text content, bounding-box coordinates and computed
background color, plus the visible body text (`document.body.innerText`). -/

inductive Tag where
  | th : Tag
  | td : Tag
deriving DecidableEq, Repr

structure DCell where
  tag : Tag := Tag.td
  text : String := ""
  top : ℤ := 0
  left : ℤ := 0
  width : ℤ := 0
  bg : String := ""
deriving DecidableEq, Repr

instance : Inhabited DCell := ⟨{}⟩

structure DRow where
  cells : List DCell := []
deriving DecidableEq, Repr

instance : Inhabited DRow := ⟨{}⟩

structure DTable where
  rows : List DRow := []
  top : ℤ := 0
deriving DecidableEq, Repr

structure DPage where
  tables : List DTable := []
  bodyText : String := ""
deriving DecidableEq, Repr

/-- The `textContent` of a row: the concatenated text of its cells. -/
def rowText (r : DRow) : String := String.join (r.cells.map (·.text))

/-- The cell list `row.querySelectorAll('th, td')`. -/
def rowAllCells (r : DRow) : List DCell := r.cells

/-- The cell list `row.querySelectorAll('td')`. -/
def rowTds (r : DRow) : List DCell := r.cells.filter (fun c => c.tag == Tag.td)

/-- Every td cell on the page (`document.querySelectorAll('td')`), in document order. -/
def allTds (p : DPage) : List DCell :=
  p.tables.flatMap (fun t => t.rows.flatMap rowTds)

/-- The horizontal center `rect.left + rect.width / 2` of a cell. -/
def centerXOf (c : DCell) : ℤ := c.left + c.width / 2

/-! ## Output records (`QuarterGrade`, `SkywardCourse`, `ScrapeResult`) -/

structure QuarterGrade where
  quarter : String
  letter : Option String
  isCurrent : Bool
deriving DecidableEq, Repr

instance : Inhabited QuarterGrade := ⟨⟨"", none, false⟩⟩

structure SkywardCourse where
  name : String
  period : String
  teacher : String
  grades : List QuarterGrade
deriving DecidableEq, Repr

instance : Inhabited SkywardCourse := ⟨⟨"", "", "", []⟩⟩

structure MissingAssignment where
  name : String
  course : String
  teacher : String
  dueDate : String
deriving DecidableEq, Repr

/-- The aggregate returned by `extractGradesData` (after the debug field is
stripped). -/
structure GradesData where
  courses : List SkywardCourse
  missingAssignments : List MissingAssignment
  studentName : String
  school : String
deriving DecidableEq, Repr

/-- The `ScrapeResult` wire shape; optional fields default to their
absent values. -/
structure ScrapeResult where
  success : Bool
  courses : List SkywardCourse := []
  missingAssignments : List MissingAssignment := []
  studentName : String := ""
  school : String := ""
  error : Option String := none
deriving DecidableEq, Repr

/-! ## Strategy 1: labeled Q1-Q4 column table -/

/-- The text `headerRow?.textContent || ''` where `headerRow` is the first table row. -/
def headerTextOf (t : DTable) : String := rowText (t.rows.getD 0 {})

/-- Whether a table passes the quarter-header test
`headerText.includes('Q1') && headerText.includes('Q2')`. -/
def headerHasQ1Q2 (t : DTable) : Bool :=
  strContains (headerTextOf t) "Q1" && strContains (headerTextOf t) "Q2"

/-- Column indices found while scanning a header row (`quarterColumns` and
`courseColumn`; unassigned entries are `none`, matching `undefined` / `-1`). -/
structure HeaderCols where
  q1 : Option Nat := none
  q2 : Option Nat := none
  q3 : Option Nat := none
  q4 : Option Nat := none
  courseCol : Option Nat := none
deriving DecidableEq, Repr

/-- The `headerCells.forEach((cell, idx) => ...)` scan: the last matching
cell index wins for each label. -/
def scanHeader (cells : List DCell) : HeaderCols :=
  cells.enum.foldl
    (fun h (p : Nat × DCell) =>
      let idx := p.1
      let text := trimStr p.2.text
      let h := if strContains text "Q1" then { h with q1 := some idx } else h
      let h := if strContains text "Q2" then { h with q2 := some idx } else h
      let h := if strContains text "Q3" then { h with q3 := some idx } else h
      let h := if strContains text "Q4" then { h with q4 := some idx } else h
      if strContains (lowerStr text) "course" || strContains (lowerStr text) "class" then
        { h with courseCol := some idx }
      else h)
    {}

/-- The `quarterColumns[q]` lookup. -/
def colFor (h : HeaderCols) : String → Option Nat
  | "Q1" => h.q1
  | "Q2" => h.q2
  | "Q3" => h.q3
  | "Q4" => h.q4
  | _ => none

/-- The per-quarter letter in strategy 1: read the cell at the quarter's
column index, trim it, strip whitespace, and take the first
`([A-F][+-]?)` match. -/
def quarterLetter (cells : List DCell) (colIdx : Option Nat) : Option String :=
  match colIdx with
  | none => none
  | some i =>
    if i < cells.length then
      findGrade (stripWs (trimStr (cells.getD i default).text)).data
    else none

/-- The quarter labels `['Q1', 'Q2', 'Q3', 'Q4']`. -/
def quarterNames : List String := ["Q1", "Q2", "Q3", "Q4"]

/-- One body row of a labeled table, strategy 1. -/
def strat1Row (h : HeaderCols) (row : DRow) : Option SkywardCourse :=
  let cells := rowAllCells row
  if cells.length < 2 then none else
  let courseIdx := h.courseCol.getD 0
  let courseName := squeezeWs (trimStr (cells.getD courseIdx default).text)
  if courseName == "" || courseName.length < 3 || isNonCourseLabel courseName then none else
  let grades := quarterNames.map (fun q =>
    { quarter := q
      letter := quarterLetter cells (colFor h q)
      isCurrent := q == "Q3" : QuarterGrade })
  if grades.any (fun g => g.letter != none) then
    some { name := courseName, period := "", teacher := "", grades := grades }
  else none

/-- Strategy 1 over the whole page. -/
def strategy1 (p : DPage) : List SkywardCourse :=
  p.tables.flatMap (fun t =>
    if headerHasQ1Q2 t then
      (t.rows.drop 1).filterMap (strat1Row (scanHeader (rowAllCells (t.rows.getD 0 {}))))
    else [])

/-! ## Strategy 2: academic-history row pattern -/

/-- One row in strategy 2: a course-name-shaped first td cell of length > 5
followed by some td cell exactly matching a letter grade (first wins). -/
def strat2Row (row : DRow) : Option SkywardCourse :=
  let cells := rowTds row
  if cells.length ≥ 2 then
    let firstCell := trimStr (cells.getD 0 default).text
    if nameShape2 firstCell && firstCell.length > 5 then
      match (cells.drop 1).findSome? (fun c =>
          let t := trimStr c.text
          if gradeExact t then some t else none) with
      | some g =>
        some { name := firstCell, period := "", teacher := ""
               grades := [
                 { quarter := "Q1", letter := none, isCurrent := false },
                 { quarter := "Q2", letter := none, isCurrent := false },
                 { quarter := "Q3", letter := some g, isCurrent := true },
                 { quarter := "Q4", letter := none, isCurrent := false }] }
      | none => none
    else none
  else none

/-- Strategy 2 over the whole page. -/
def strategy2 (p : DPage) : List SkywardCourse :=
  p.tables.flatMap (fun t => t.rows.filterMap strat2Row)

/-! ## Strategy 3: position-based reconstruction -/

/-- Quarter header horizontal centers (`quarterXPositions`); unassigned
entries are `none`, matching `undefined`. -/
structure QuarterXs where
  q1 : Option ℤ := none
  q2 : Option ℤ := none
  q3 : Option ℤ := none
  q4 : Option ℤ := none
deriving DecidableEq, Repr

/-- The `quarterXPositions[q]` lookup. -/
def xFor (xs : QuarterXs) : String → Option ℤ
  | "Q1" => xs.q1
  | "Q2" => xs.q2
  | "Q3" => xs.q3
  | "Q4" => xs.q4
  | _ => none

/-- The test `Object.values(quarterXPositions).every(x => x === undefined)`: true
exactly when no quarter header position was recorded. -/
def allXsUndefined (xs : QuarterXs) : Bool :=
  xs.q1.isNone && xs.q2.isNone && xs.q3.isNone && xs.q4.isNone

/-- Scan of the header cells of the first Q1/Q2 table, recording each
quarter header's horizontal center; the last matching cell wins. -/
def scanHeaderXs (cells : List DCell) : QuarterXs :=
  cells.foldl
    (fun h cell =>
      let text := trimStr cell.text
      let cx := centerXOf cell
      let h := if strContains text "Q1" then { h with q1 := some cx } else h
      let h := if strContains text "Q2" then { h with q2 := some cx } else h
      let h := if strContains text "Q3" then { h with q3 := some cx } else h
      if strContains text "Q4" then { h with q4 := some cx } else h)
    {}

/-- Find the first table whose header row contains Q1 and Q2 and read the
quarter header centers from it (the loop breaks at the first such table). -/
def findQuarterXs (tables : List DTable) : QuarterXs :=
  match tables.find? headerHasQ1Q2 with
  | some t => scanHeaderXs (rowAllCells (t.rows.getD 0 {}))
  | none => {}

/-- One entry of `allGradeCells`: a td cell whose cleaned text matches
`^[A-F][+-]?$`, with its position data and computed background color. -/
structure GradeCell where
  text : String
  y : ℤ
  x : ℤ
  centerX : ℤ
  bg : String
deriving DecidableEq, Repr

/-- Collect every grade-looking td cell on the page with its position. -/
def collectGradeCells (p : DPage) : List GradeCell :=
  (allTds p).filterMap (fun c =>
    let t := stripWs (trimStr c.text)
    if gradeExact t then
      some { text := upperStr t, y := c.top, x := c.left, centerX := centerXOf c, bg := c.bg }
    else none)

/-- A 3-row course info block: all-caps name row, `Period N` row, all-caps
teacher row, with the table's vertical position. -/
structure CourseBlock where
  name : String
  period : String
  teacher : String
  y : ℤ
deriving DecidableEq, Repr

/-- Detect whether a table is a 3-row course info block. -/
def courseBlockOf (t : DTable) : Option CourseBlock :=
  if t.rows.length == 3 then
    let r1 := trimStr (rowText (t.rows.getD 0 {}))
    let r2 := trimStr (rowText (t.rows.getD 1 {}))
    let r3 := trimStr (rowText (t.rows.getD 2 {}))
    if allCapsName r1 && periodMatch r2.data && allCapsTeacher r3 then
      some { name := r1, period := r2, teacher := r3, y := t.top }
    else none
  else none

/-- The `courseData` collection: every course info block on the page. -/
def collectCourseBlocks (tables : List DTable) : List CourseBlock :=
  tables.filterMap courseBlockOf

/-- The grade cells grouped into a course block's visual row:
`allGradeCells.filter(cell => Math.abs(cell.y - courseY) < 40)`. -/
def rowCellsFor (cells : List GradeCell) (courseY : ℤ) : List GradeCell :=
  cells.filter (fun c => decide (|c.y - courseY| < 40))

/-- The grade cell assigned to a quarter column:
`rowCells.find(cell => Math.abs(cell.centerX - quarterX) < 30)`. -/
def assignFor (rowCells : List GradeCell) (quarterX : ℤ) : Option GradeCell :=
  rowCells.find? (fun c => decide (|c.centerX - quarterX| < 30))

/-- The non-white non-default highlight heuristic on a computed background:
`bg.includes('255') && bg.includes('255') && !bg.includes('255, 255, 255')`. -/
def bgHighlighted (bg : String) : Bool :=
  strContains bg "255" && strContains bg "255" && !(strContains bg "255, 255, 255")

/-- The per-course grade slots (`gradeValues`). -/
structure GVals where
  q1 : Option String := none
  q2 : Option String := none
  q3 : Option String := none
  q4 : Option String := none
deriving DecidableEq, Repr

/-- The `gradeValues[q]` lookup. -/
def gvFor (g : GVals) : String → Option String
  | "Q1" => g.q1
  | "Q2" => g.q2
  | "Q3" => g.q3
  | "Q4" => g.q4
  | _ => none

/-- The `gradeValues[q] = v` update. -/
def gvSet (g : GVals) (q : String) (v : Option String) : GVals :=
  match q with
  | "Q1" => { g with q1 := v }
  | "Q2" => { g with q2 := v }
  | "Q3" => { g with q3 := v }
  | "Q4" => { g with q4 := v }
  | _ => g

/-- One iteration of the `for (const quarter of ['Q1'..'Q4'])` loop:
skip quarters without a header position; otherwise assign the first
row cell within the 30px horizontal tolerance and mark the quarter
current when that cell's background is highlighted. -/
def quarterStep (rowCells : List GradeCell) (xs : QuarterXs)
    (acc : GVals × Option String) (q : String) : GVals × Option String :=
  match xFor xs q with
  | none => acc
  | some qx =>
    match assignFor rowCells qx with
    | some cell =>
      (gvSet acc.1 q (some cell.text),
       if bgHighlighted cell.bg then some q else acc.2)
    | none => acc

/-- The full quarter-matching loop over Q1..Q4, yielding `gradeValues`
and `currentQuarter`. -/
def strat3Assign (xs : QuarterXs) (rowCells : List GradeCell) : GVals × Option String :=
  quarterNames.foldl (quarterStep rowCells xs) ({}, none)

/-- The no-header fallback: sort the row's grade cells by x, keep the four
rightmost, and read them as Q1..Q4 left to right. -/
def rightmostFour (rowCells : List GradeCell) : GVals :=
  let sorted := rowCells.mergeSort (fun a b => a.x ≤ b.x)
  let last4 := sorted.drop (sorted.length - 4)
  { q1 := (last4.get? 0).map (·.text)
    q2 := (last4.get? 1).map (·.text)
    q3 := (last4.get? 2).map (·.text)
    q4 := (last4.get? 3).map (·.text) }

/-- The record built for one course block by strategy 3 (before merging). -/
def strat3Record (xs : QuarterXs) (cells : List GradeCell) (b : CourseBlock) : SkywardCourse :=
  let rowCells := rowCellsFor cells b.y
  let assigned := strat3Assign xs rowCells
  let gv := if allXsUndefined xs then rightmostFour rowCells else assigned.1
  let cq := assigned.2
  { name := b.name, period := b.period, teacher := b.teacher
    grades := [
      { quarter := "Q1", letter := gv.q1, isCurrent := cq == some "Q1" },
      { quarter := "Q2", letter := gv.q2, isCurrent := cq == some "Q2" },
      { quarter := "Q3", letter := gv.q3, isCurrent := cq == some "Q3" || cq == none },
      { quarter := "Q4", letter := gv.q4, isCurrent := cq == some "Q4" }] }

/-- The in-place grade merge for a duplicate course name: a non-null new
letter fills a null existing slot, and any current flag propagates. -/
def mergeGrades (ex new : List QuarterGrade) : List QuarterGrade :=
  List.zipWith
    (fun e g =>
      { e with
        letter := if jsTruthy g.letter && !jsTruthy e.letter then g.letter else e.letter
        isCurrent := e.isCurrent || g.isCurrent })
    ex new

/-- Insert a strategy 3 record into the accumulated course list: merge into
the first same-named course if one exists, else append. -/
def mergeInto : List SkywardCourse → SkywardCourse → List SkywardCourse
  | [], c => [c]
  | x :: xs, c =>
    if x.name == c.name then { x with grades := mergeGrades x.grades c.grades } :: xs
    else x :: mergeInto xs c

/-- Strategy 3 over the whole page. -/
def strategy3 (p : DPage) : List SkywardCourse :=
  let xs := findQuarterXs p.tables
  let cells := collectGradeCells p
  (collectCourseBlocks p.tables).foldl
    (fun acc b => mergeInto acc (strat3Record xs cells b)) []

/-! ## extractGradesData: the strategy cascade -/

/-- The extraction entry point `extractGradesData`: opportunistic student name and school extraction,
then the three strategies in order, accepting the first non-empty result. -/
def extractGradesData (p : DPage) : GradesData :=
  let studentName := (findName p.bodyText.data).getD ""
  let school := (findSchool p.bodyText.data).getD ""
  let s1 := strategy1 p
  if s1.length > 0 then
    { courses := s1, missingAssignments := [], studentName := studentName, school := school }
  else
    let s2 := strategy2 p
    if s2.length > 0 then
      { courses := s2, missingAssignments := [], studentName := studentName, school := school }
    else
      { courses := strategy3 p, missingAssignments := [], studentName := studentName, school := school }

/-- The empty extraction result used when the extraction script throws. -/
def emptyGradesData : GradesData :=
  { courses := [], missingAssignments := [], studentName := "", school := "" }

/-! ## The scrapeGrades tail and the browser session -/

/-- The course-only fallback scan in `scrapeGrades`: 3-row course info
blocks reported with all four quarter letters null and Q3 current. -/
def fallbackCourses (tables : List DTable) : List SkywardCourse :=
  tables.filterMap (fun t =>
    (courseBlockOf t).map (fun b =>
      { name := b.name, period := b.period, teacher := b.teacher
        grades := [
          { quarter := "Q1", letter := none, isCurrent := false },
          { quarter := "Q2", letter := none, isCurrent := false },
          { quarter := "Q3", letter := none, isCurrent := true },
          { quarter := "Q4", letter := none, isCurrent := false }] }))

/-- The session manager's view of the browser: `none` when no browser is
open, `some id` identifying the live browser process. -/
structure SessionState where
  browser : Option Nat
deriving DecidableEq, Repr

/-- The `init` and `ensureBrowser` steps: keep an existing browser that answers the
liveness probe (`browser.version()`), otherwise launch a fresh one. -/
def ensureBrowserStep (s : SessionState) (alive : Nat → Bool) (fresh : Nat) : SessionState :=
  match s.browser with
  | some b => if alive b then s else { browser := some fresh }
  | none => { browser := some fresh }

/-- A page evaluation against the session: the script's result when the
browser is alive, the caught-rejection default when it has been closed. -/
def pageEval {α : Type} (browserAlive : Bool) (f : DPage → α) (caught : α) (p : DPage) : α :=
  if browserAlive then f p else caught

/-- The `scrapeGrades` pipeline from form fill to result, threading the
session state in source order: extraction (its failure caught to the empty
data, controlled by `extractOk`), then the browser close, then the
course-only fallback evaluated against the already-closed browser, then
the result decision. -/
def scrapeGradesModel (s : SessionState) (alive : Nat → Bool) (fresh : Nat)
    (formFound : Bool) (p : DPage) (extractOk : Bool) :
    SessionState × ScrapeResult :=
  let s1 := ensureBrowserStep s alive fresh
  if !formFound then
    (s1, { success := false, error := some "Could not find login form" })
  else
    let gradesData :=
      if extractOk then pageEval s1.browser.isSome extractGradesData emptyGradesData p
      else emptyGradesData
    let s2 : SessionState := { browser := none }
    if gradesData.courses.length == 0 then
      let fallbackData :=
        pageEval s2.browser.isSome (fun q => fallbackCourses q.tables) [] p
      if fallbackData.length > 0 then
        (s2, { success := true, courses := fallbackData
               missingAssignments := gradesData.missingAssignments
               studentName := gradesData.studentName, school := gradesData.school })
      else
        (s2, { success := false
               error := some "No grades found. Skyward may be blocking automated access. Try accessing Skyward directly." })
    else
      (s2, { success := true, courses := gradesData.courses
             missingAssignments := gradesData.missingAssignments
             studentName := gradesData.studentName, school := gradesData.school })

/-! ## testConnection: the login success/failure decision

The decision is embedded over the outcomes of the page probes the code
performs after submitting the login form: whether more than one page is
open, whether logged-in markers were seen in the body text, whether the
login form is still present, whether the page content contains an error
word (invalid / incorrect / failed / error), whether the final URL moved
away from the login URL (neither `seplog` nor `login` in it), whether
grade-like content is present, and the best-effort text of an error
element (`null` when none was found). -/

inductive LoginOutcome where
  | success : String → LoginOutcome
  | failure : String → LoginOutcome
deriving DecidableEq, Repr

/-- The ordered decision cascade of `testConnection` after login submit. -/
def testConnectionDecide (multiPages hasLoggedInContent loginFormPresent
    errorPattern urlAway hasGradeContent : Bool)
    (errorElText : Option String) : LoginOutcome :=
  if multiPages || hasLoggedInContent || !loginFormPresent then
    LoginOutcome.success "Connected successfully!"
  else if loginFormPresent && !hasLoggedInContent then
    LoginOutcome.failure "Login failed. Please double-check your username and password."
  else if errorPattern then
    LoginOutcome.failure
      (if jsTruthy errorElText then errorElText.getD "" else "Login failed. Please check your credentials.")
  else if urlAway then
    LoginOutcome.success "Connected successfully!"
  else if hasGradeContent then
    LoginOutcome.success "Connected successfully!"
  else
    LoginOutcome.failure "Login may have failed. Please verify your credentials."

/-- Which branch of the cascade decides, numbered 1-6 in source order:
1 = combined success check, 2 = login-form-still-visible failure,
3 = explicit error-text patterns, 4 = URL moved away, 5 = grade content,
6 = ambiguous failure. -/
def testConnectionBranch (multiPages hasLoggedInContent loginFormPresent
    errorPattern urlAway hasGradeContent : Bool) : Nat :=
  if multiPages || hasLoggedInContent || !loginFormPresent then 1
  else if loginFormPresent && !hasLoggedInContent then 2
  else if errorPattern then 3
  else if urlAway then 4
  else if hasGradeContent then 5
  else 6

/-- All combinations of the six boolean probe outcomes. -/
def allProbeCombos : List (Bool × Bool × Bool × Bool × Bool × Bool) :=
  let bs := [false, true]
  bs.flatMap (fun a => bs.flatMap (fun b => bs.flatMap (fun c =>
    bs.flatMap (fun d => bs.flatMap (fun e => bs.map (fun f => (a, b, c, d, e, f)))))))

/-- Whether some combination of probe outcomes makes the explicit
error-text branch (branch 3) the deciding one. -/
def branch3Reachable : Bool :=
  allProbeCombos.any (fun p =>
    testConnectionBranch p.1 p.2.1 p.2.2.1 p.2.2.2.1 p.2.2.2.2.1 p.2.2.2.2.2 == 3)

/-! ## The waitForTurn / releaseTurn operation queue

The queue discipline is embedded as a transition system over abstract
operation identifiers.  `arrive id` is `waitForTurn` being called by
operation `id` (it either starts running at once or is appended to
`operationQueue`); `release` is the holder's `releaseTurn` in its
`finally` block (it clears the in-progress flag and, when the queue is
non-empty, resumes its head, which re-sets the flag).  `running` is the
set (at most a singleton) of operations between their `waitForTurn`
resolution and their `releaseTurn`; `arrived` and `granted` record the
order of arrivals and of turn grants. -/

structure QState where
  inProgress : Bool
  queue : List Nat
  running : List Nat
  arrived : List Nat
  granted : List Nat
deriving DecidableEq, Repr

inductive QEvent where
  | arrive : Nat → QEvent
  | release : QEvent
deriving DecidableEq, Repr

/-- The initial state: no operation in progress, empty queue. -/
def qinit : QState := ⟨false, [], [], [], []⟩

/-- One step of the queue discipline. -/
def qstep (s : QState) : QEvent → QState
  | QEvent.arrive id =>
    if s.inProgress then
      { s with queue := s.queue ++ [id], arrived := s.arrived ++ [id] }
    else
      { s with inProgress := true, running := [id]
               arrived := s.arrived ++ [id], granted := s.granted ++ [id] }
  | QEvent.release =>
    let s0 := { s with inProgress := false, running := [] }
    match s.queue with
    | [] => s0
    | h :: t =>
      { s0 with inProgress := true, queue := t, running := [h]
                granted := s.granted ++ [h] }

/-- Run a trace of events from a state. -/
def qrunFrom (s : QState) (es : List QEvent) : QState := es.foldl qstep s

/-- Run a trace of events from the initial state. -/
def qrun (es : List QEvent) : QState := qrunFrom qinit es

/-- The queue-discipline invariant: at most one operation runs, every
arrival has either been granted the turn or is still queued in arrival
order, and a cleared in-progress flag means nothing is queued or
running. -/
def qinv (s : QState) : Prop :=
  s.running.length ≤ 1 ∧
  s.arrived = s.granted ++ s.queue ∧
  (s.inProgress = false → s.queue = [] ∧ s.running = [])

/-! ## Concrete fixtures -/

/-- A header cell. -/
def thc (s : String) : DCell := { tag := Tag.th, text := s }

/-- A plain td cell. -/
def tdc (s : String) : DCell := { text := s }

/-- A liveness probe that always succeeds. -/
def alwaysAlive : Nat → Bool := fun _ => true

/-- The end-to-end fixture: one labeled Q1-Q4 table with course rows
BIOLOGY (A, B, null, null) and ALGEBRA II (null, null, B+, null), the
ALGEBRA II Q3 cell carrying a highlight background. -/
def fixture1 : DPage :=
  { tables := [
      { rows := [
          { cells := [thc "Course", thc "Q1", thc "Q2", thc "Q3", thc "Q4"] },
          { cells := [tdc "BIOLOGY", tdc "A", tdc "B", tdc "", tdc ""] },
          { cells := [tdc "ALGEBRA II", tdc "", tdc "",
                      { text := "B+", bg := "rgb(255, 255, 153)" }, tdc ""] }] }]
    bodyText := "" }

/-- A page whose only content is a single 3-row course info block. -/
def cex2Page : DPage :=
  { tables := [
      { rows := [
          { cells := [tdc "BIOLOGY"] },
          { cells := [tdc "Period 3"] },
          { cells := [tdc "MR SMITH"] }] }]
    bodyText := "" }

/-- A strategy 3 page with two same-named course blocks: the first has a
highlighted grade cell under Q1, the second an unhighlighted grade cell
under Q2 (so its current quarter defaults to Q3). -/
def cex5Page : DPage :=
  { tables := [
      { rows := [
          { cells := [
              { tag := Tag.th, text := "Q1", left := 100, width := 20 },
              { tag := Tag.th, text := "Q2", left := 200, width := 20 },
              { tag := Tag.th, text := "Q3", left := 300, width := 20 },
              { tag := Tag.th, text := "Q4", left := 400, width := 20 }] }] },
      { rows := [
          { cells := [tdc "BIOLOGY"] },
          { cells := [tdc "Period 1"] },
          { cells := [tdc "MR SMITH"] }]
        top := 500 },
      { rows := [
          { cells := [{ text := "A", top := 500, left := 105, width := 10, bg := "rgb(255, 255, 0)" }] },
          { cells := [{ text := "B", top := 700, left := 205, width := 10, bg := "rgb(255, 255, 255)" }] }] },
      { rows := [
          { cells := [tdc "BIOLOGY"] },
          { cells := [tdc "Period 4"] },
          { cells := [tdc "MS JONES"] }]
        top := 700 }]
    bodyText := "" }

/-- A page with no tables and a body text matching the student-name regex. -/
def cex8Page : DPage := { tables := [], bodyText := "JOHN Q PUBLIC" }

/-! ## Claims -/

/-- C1, counterexample.  On the two-course labeled-table fixture, the
extraction marks `isCurrent = true` on the Q3 entry of BOTH courses,
refuting the claim that `isCurrent = true` appears only on ALGEBRA II's
Q3 entry and that every quarter entry of BIOLOGY is `false`. -/
theorem c1_counterexample :
    (extractGradesData fixture1).courses.map (fun c => c.grades.map (·.isCurrent)) =
      [[false, false, true, false], [false, false, true, false]] := by
  decide

/-- C1, amended.  On the fixture, extraction returns exactly two course
records, BIOLOGY with letters A, B, null, null and ALGEBRA II with
letters null, null, B+, null, in that order; strategy 1 ignores the
highlight and marks `isCurrent = true` on exactly the Q3 entry of each
course. -/
theorem c1_labeled_table_extraction :
    extractGradesData fixture1 =
      { courses := [
          { name := "BIOLOGY", period := "", teacher := ""
            grades := [
              { quarter := "Q1", letter := some "A", isCurrent := false },
              { quarter := "Q2", letter := some "B", isCurrent := false },
              { quarter := "Q3", letter := none, isCurrent := true },
              { quarter := "Q4", letter := none, isCurrent := false }] },
          { name := "ALGEBRA II", period := "", teacher := ""
            grades := [
              { quarter := "Q1", letter := none, isCurrent := false },
              { quarter := "Q2", letter := none, isCurrent := false },
              { quarter := "Q3", letter := some "B+", isCurrent := true },
              { quarter := "Q4", letter := none, isCurrent := false }] }]
        missingAssignments := [], studentName := "", school := "" } := by
  decide

/-- C2, code bug.  The browser is closed before the course-only fallback
scan runs, so on a scrape whose extraction yielded zero courses over a
page that does contain a 3-row course info block, the pipeline returns
`success: false` with the no-grades diagnostic even though the very scan
it just attempted would have found the course block had the page still
been reachable. -/
theorem c2_fallback_dead_after_browser_close :
    (scrapeGradesModel { browser := none } alwaysAlive 1 true cex2Page false).2 =
      { success := false
        error := some "No grades found. Skyward may be blocking automated access. Try accessing Skyward directly." } ∧
    fallbackCourses cex2Page.tables =
      [{ name := "BIOLOGY", period := "Period 3", teacher := "MR SMITH"
         grades := [
           { quarter := "Q1", letter := none, isCurrent := false },
           { quarter := "Q2", letter := none, isCurrent := false },
           { quarter := "Q3", letter := none, isCurrent := true },
           { quarter := "Q4", letter := none, isCurrent := false }] }] := by
  exact ⟨by decide, by decide⟩

/-- C3, counterexample.  No combination of post-login probe outcomes makes
the explicit error-text patterns branch the deciding one: the combined
first success check and the login-form-still-visible check exhaust every
case, so branch (d) is unreachable. -/
theorem c3_counterexample : branch3Reachable = false := by decide

/-- C3, amended.  The login decision cascade is evaluated in source order,
but only its first two branches can ever decide: whenever the combined
success check (multiple windows, or authenticated markers, or login form
absent) declines, the login form is still visible without markers, so the
bad-credentials branch fires; the error-text, URL, grade-content and
ambiguous branches are dead code. -/
theorem c3_login_decision_first_two_branches :
    ∀ (a b c d e f : Bool) (t : Option String),
      (testConnectionBranch a b c d e f = 1 ∨ testConnectionBranch a b c d e f = 2) ∧
      testConnectionDecide a b c d e f t =
        (if a || b || !c then LoginOutcome.success "Connected successfully!"
         else LoginOutcome.failure "Login failed. Please double-check your username and password.") := by
  intro a b c d e f t
  rcases a <;> rcases b <;> rcases c <;> rcases d <;> rcases e <;> rcases f <;>
    simp [testConnectionBranch, testConnectionDecide]

/-- C4, counterexample.  A scrapeGrades call that completes successfully
on the labeled-table fixture leaves the session with no browser (the
pipeline closes it before returning), and the next acquire launches a new
process rather than reusing the old one. -/
theorem c4_counterexample :
    (scrapeGradesModel { browser := none } alwaysAlive 1 true fixture1 true).2.success = true ∧
    (scrapeGradesModel { browser := none } alwaysAlive 1 true fixture1 true).1.browser = none ∧
    ensureBrowserStep (scrapeGradesModel { browser := none } alwaysAlive 1 true fixture1 true).1
        alwaysAlive 2 = { browser := some 2 } := by
  exact ⟨by decide, by decide, by decide⟩

/-- C4, amended.  The browser is lazily created on first use and `init`
does reuse a live browser, but `scrapeGrades` tears the session down
before returning whenever it reaches extraction — on success as well as
on error — so a subsequent acquire always launches a new process. -/
theorem c4_browser_closed_after_success :
    ∀ (s : SessionState) (alive : Nat → Bool) (fresh : Nat) (p : DPage) (ok : Bool),
      ((scrapeGradesModel s alive fresh true p ok).2.success = true →
        (scrapeGradesModel s alive fresh true p ok).1.browser = none) ∧
      (∀ (a : Nat → Bool) (f : Nat), ensureBrowserStep { browser := none } a f = { browser := some f }) ∧
      (∀ (b : Nat) (a : Nat → Bool) (f : Nat), a b = true →
        ensureBrowserStep { browser := some b } a f = { browser := some b }) := by
  intro s alive fresh p ok
  refine ⟨?_, fun a f => rfl, fun b a f hb => ?_⟩
  · intro _
    simp only [scrapeGradesModel, Bool.not_true, Bool.false_eq_true, if_false]
    split
    · split <;> rfl
    · rfl
  · simp [ensureBrowserStep, hb]

/-! ### Structure of the records each strategy produces -/

/-- A course accepted by strategy 1 carries the literal four-quarter grades
shape with Q3 unconditionally current. -/
theorem strat1Row_grades {h : HeaderCols} {row : DRow} {c : SkywardCourse}
    (hc : strat1Row h row = some c) :
    ∃ l1 l2 l3 l4, c.grades =
      [{ quarter := "Q1", letter := l1, isCurrent := false },
       { quarter := "Q2", letter := l2, isCurrent := false },
       { quarter := "Q3", letter := l3, isCurrent := true },
       { quarter := "Q4", letter := l4, isCurrent := false }] := by
  unfold strat1Row at hc
  dsimp only at hc
  split at hc
  · exact absurd hc (by simp)
  · split at hc
    · exact absurd hc (by simp)
    · split at hc
      · obtain rfl : _ = c := Option.some.inj hc
        exact ⟨_, _, _, _, rfl⟩
      · exact absurd hc (by simp)

/-- A course accepted by strategy 2 carries the literal four-quarter grades
shape with only Q3 populated and current. -/
theorem strat2Row_grades {row : DRow} {c : SkywardCourse}
    (hc : strat2Row row = some c) :
    ∃ g, c.grades =
      [{ quarter := "Q1", letter := none, isCurrent := false },
       { quarter := "Q2", letter := none, isCurrent := false },
       { quarter := "Q3", letter := some g, isCurrent := true },
       { quarter := "Q4", letter := none, isCurrent := false }] := by
  unfold strat2Row at hc
  dsimp only at hc
  split at hc
  · split at hc
    · split at hc
      · obtain rfl : _ = c := Option.some.inj hc
        exact ⟨_, rfl⟩
      · exact absurd hc (by simp)
    · exact absurd hc (by simp)
  · exact absurd hc (by simp)

/-- Membership in strategy 1 comes from some accepted row. -/
theorem mem_strategy1 {p : DPage} {c : SkywardCourse} (hc : c ∈ strategy1 p) :
    ∃ h row, strat1Row h row = some c := by
  unfold strategy1 at hc
  obtain ⟨t, _, hmem⟩ := List.mem_flatMap.mp hc
  split at hmem
  · obtain ⟨row, _, hrow⟩ := List.mem_filterMap.mp hmem
    exact ⟨_, row, hrow⟩
  · exact absurd hmem (by simp)

/-- Membership in strategy 2 comes from some accepted row. -/
theorem mem_strategy2 {p : DPage} {c : SkywardCourse} (hc : c ∈ strategy2 p) :
    ∃ row, strat2Row row = some c := by
  unfold strategy2 at hc
  obtain ⟨t, _, hmem⟩ := List.mem_flatMap.mp hc
  obtain ⟨row, _, hrow⟩ := List.mem_filterMap.mp hmem
  exact ⟨row, hrow⟩

/-- The second component of a quarter-matching step is either unchanged or
the quarter just considered. -/
theorem quarterStep_snd (rc : List GradeCell) (xs : QuarterXs)
    (acc : GVals × Option String) (q : String) :
    (quarterStep rc xs acc q).2 = acc.2 ∨ (quarterStep rc xs acc q).2 = some q := by
  cases hx : xFor xs q with
  | none => simp [quarterStep, hx]
  | some qx =>
    cases ha : assignFor rc qx with
    | none => simp [quarterStep, hx, ha]
    | some cell =>
      simp only [quarterStep, hx, ha]
      split
      · exact Or.inr rfl
      · exact Or.inl rfl

/-- The current quarter computed by the Q1..Q4 loop is nothing or one of
the four quarter names. -/
theorem strat3Assign_snd (xs : QuarterXs) (rc : List GradeCell) :
    (strat3Assign xs rc).2 = none ∨ (strat3Assign xs rc).2 = some "Q1" ∨
    (strat3Assign xs rc).2 = some "Q2" ∨ (strat3Assign xs rc).2 = some "Q3" ∨
    (strat3Assign xs rc).2 = some "Q4" := by
  have e : strat3Assign xs rc =
      quarterStep rc xs (quarterStep rc xs (quarterStep rc xs
        (quarterStep rc xs ({}, none) "Q1") "Q2") "Q3") "Q4" := rfl
  rw [e]
  rcases quarterStep_snd rc xs (quarterStep rc xs (quarterStep rc xs
      (quarterStep rc xs ({}, none) "Q1") "Q2") "Q3") "Q4" with h4 | h4
  · rw [h4]
    rcases quarterStep_snd rc xs (quarterStep rc xs
        (quarterStep rc xs ({}, none) "Q1") "Q2") "Q3" with h3 | h3
    · rw [h3]
      rcases quarterStep_snd rc xs (quarterStep rc xs ({}, none) "Q1") "Q2" with h2 | h2
      · rw [h2]
        rcases quarterStep_snd rc xs ({}, none) "Q1" with h1 | h1
        · rw [h1]; exact Or.inl rfl
        · rw [h1]; exact Or.inr (Or.inl rfl)
      · rw [h2]; exact Or.inr (Or.inr (Or.inl rfl))
    · rw [h3]; exact Or.inr (Or.inr (Or.inr (Or.inl rfl)))
  · rw [h4]; exact Or.inr (Or.inr (Or.inr (Or.inr rfl)))

/-- Every record strategy 3 builds for a single course block has exactly
one current quarter entry. -/
theorem strat3Record_current_count (xs : QuarterXs) (cells : List GradeCell)
    (b : CourseBlock) :
    (strat3Record xs cells b).grades.countP (·.isCurrent) = 1 := by
  rcases strat3Assign_snd xs (rowCellsFor cells b.y) with h | h | h | h | h <;>
    simp [strat3Record, h, List.countP_cons]

/-- Merging grade lists of equal length preserves the quarter labels. -/
theorem mergeGrades_map_quarter :
    ∀ {a b : List QuarterGrade}, a.length = b.length →
      (mergeGrades a b).map (·.quarter) = a.map (·.quarter) := by
  intro a
  induction a with
  | nil => intro b _; cases b <;> rfl
  | cons x xs ih =>
    intro b h
    cases b with
    | nil => simp at h
    | cons y ys =>
      simp only [mergeGrades, List.zipWith_cons_cons, List.map_cons] at *
      exact congrArg _ (ih (Nat.succ.inj h))

/-- Merging grade lists of equal length cannot lose a current flag. -/
theorem mergeGrades_countP_ge :
    ∀ {a b : List QuarterGrade}, a.length = b.length →
      a.countP (·.isCurrent) ≤ (mergeGrades a b).countP (·.isCurrent) := by
  intro a
  induction a with
  | nil => intro b _; simp [mergeGrades]
  | cons x xs ih =>
    intro b h
    cases b with
    | nil => simp at h
    | cons y ys =>
      have hle := ih (Nat.succ.inj h) (b := ys)
      cases hx : x.isCurrent <;> cases hy : y.isCurrent <;>
        simp [mergeGrades, List.countP_cons, hx, hy] at * <;> omega

/-- A property preserved by the duplicate-name grade merge is preserved by
inserting a record into the accumulated course list. -/
theorem mergeInto_forall {P : SkywardCourse → Prop}
    (hmerge : ∀ x c, P x → P c → P { x with grades := mergeGrades x.grades c.grades }) :
    ∀ (acc : List SkywardCourse) (c : SkywardCourse),
      (∀ x ∈ acc, P x) → P c → ∀ x ∈ mergeInto acc c, P x := by
  intro acc
  induction acc with
  | nil =>
    intro c _ hc x hx
    simp only [mergeInto, List.mem_singleton] at hx
    exact hx ▸ hc
  | cons a as ih =>
    intro c hacc hc x hx
    simp only [mergeInto] at hx
    split at hx
    · rcases List.mem_cons.mp hx with rfl | hx
      · exact hmerge a c (hacc a (List.mem_cons_self _ _)) hc
      · exact hacc x (List.mem_cons_of_mem a hx)
    · rcases List.mem_cons.mp hx with rfl | hx
      · exact hacc _ (List.mem_cons_self _ _)
      · exact ih c (fun y hy => hacc y (List.mem_cons_of_mem a hy)) hc x hx

/-- A property of every freshly built strategy 3 record, preserved by the
merge, holds for everything in the folded course list. -/
theorem foldl_mergeInto_forall {P : SkywardCourse → Prop}
    (hmerge : ∀ x c, P x → P c → P { x with grades := mergeGrades x.grades c.grades })
    (f : CourseBlock → SkywardCourse) (hf : ∀ b, P (f b)) :
    ∀ (bs : List CourseBlock) (acc : List SkywardCourse),
      (∀ x ∈ acc, P x) →
      ∀ x ∈ bs.foldl (fun a b => mergeInto a (f b)) acc, P x := by
  intro bs
  induction bs with
  | nil => intro acc hacc x hx; exact hacc x hx
  | cons b bs ih =>
    intro acc hacc x hx
    exact ih (mergeInto acc (f b))
      (mergeInto_forall hmerge acc (f b) hacc (hf b)) x hx

/-- C5, counterexample.  On a page with two same-named course blocks — one
whose assigned grade cell is highlighted under Q1, one with no highlight
(so Q3 defaults to current) — the merged record has `isCurrent = true` on
both Q1 and Q3: the exactly-one-current invariant is not preserved by the
merge. -/
theorem c5_counterexample :
    (extractGradesData cex5Page).courses.map (fun c => c.grades.map (·.isCurrent)) =
      [[true, false, true, false]] := by
  decide

/-- C5, amended.  Every record built by strategy 1, strategy 2, or
strategy 3 for a single course block has exactly one quarter entry with
`isCurrent = true` (Q3 when no highlight signal was seen); the merge of
same-named blocks ORs the flags, which preserves at least one current
entry but can produce more than one. -/
theorem c5_current_flag_invariant :
    ∀ p : DPage,
      (∀ c ∈ strategy1 p, c.grades.countP (·.isCurrent) = 1) ∧
      (∀ c ∈ strategy2 p, c.grades.countP (·.isCurrent) = 1) ∧
      (∀ (xs : QuarterXs) (cells : List GradeCell) (b : CourseBlock),
        (strat3Record xs cells b).grades.countP (·.isCurrent) = 1) ∧
      (∀ (xs : QuarterXs) (cells : List GradeCell) (b : CourseBlock),
        (strat3Assign xs (rowCellsFor cells b.y)).2 = none →
        (strat3Record xs cells b).grades.map (·.isCurrent) = [false, false, true, false]) ∧
      (∀ c ∈ strategy3 p, 1 ≤ c.grades.countP (·.isCurrent)) := by
  intro p
  refine ⟨?_, ?_, strat3Record_current_count, ?_, ?_⟩
  · intro c hc
    obtain ⟨h, row, hrow⟩ := mem_strategy1 hc
    obtain ⟨l1, l2, l3, l4, hg⟩ := strat1Row_grades hrow
    rw [hg]
    rfl
  · intro c hc
    obtain ⟨row, hrow⟩ := mem_strategy2 hc
    obtain ⟨g, hg⟩ := strat2Row_grades hrow
    rw [hg]
    rfl
  · intro xs cells b hnone
    simp [strat3Record, hnone]
  · intro c hc
    unfold strategy3 at hc
    refine foldl_mergeInto_forall
      (P := fun c => c.grades.length = 4 ∧ 1 ≤ c.grades.countP (·.isCurrent))
      ?_ _ ?_ _ _ (by simp) c hc |>.2
    · intro x c ⟨hxl, hxc⟩ ⟨hcl, _⟩
      constructor
      · simp [mergeGrades, hxl, hcl]
      · exact le_trans hxc (mergeGrades_countP_ge (hxl.trans hcl.symm))
    · intro b
      refine ⟨rfl, ?_⟩
      rw [strat3Record_current_count]

/-- C5, witness for the amended theorem at concrete inputs. -/
theorem c5_witness :
    ((extractGradesData fixture1).courses.getD 0 default).grades.countP (·.isCurrent) = 1 ∧
    ((extractGradesData cex5Page).courses.getD 0 default).grades.countP (·.isCurrent) ≥ 1 := by
  constructor
  · exact (c5_current_flag_invariant fixture1).1
      ((extractGradesData fixture1).courses.getD 0 default) (by decide)
  · exact (c5_current_flag_invariant cex5Page).2.2.2.2
      ((extractGradesData cex5Page).courses.getD 0 default) (by decide)

/-- The merged letter of one slot under the disjointness and
no-empty-letter assumptions is the union of the two input letters. -/
theorem mergeLetter_or {x y : QuarterGrade}
    (hy : y.letter ≠ some "")
    (hd : x.letter = none ∨ y.letter = none) :
    (if jsTruthy y.letter && !jsTruthy x.letter then y.letter else x.letter) =
      x.letter.or y.letter := by
  rcases hd with h | h
  · rw [h]
    cases hy' : y.letter with
    | none => simp [jsTruthy]
    | some s =>
      have hs : s ≠ "" := fun hse => hy (by rw [hy', hse])
      simp [jsTruthy, hs]
  · rw [h]
    simp [jsTruthy, Option.or_none]

/-- C6.  Merging two grade lists with no empty-string letters and slotwise
disjoint non-null letters yields, slot by slot, the union of the letters
(no letter lost or overwritten), and the resulting letters do not depend
on the merge order. -/
theorem c6_merge_disjoint_union :
    ∀ (a b : List QuarterGrade),
      (∀ g ∈ a, g.letter ≠ some "") →
      (∀ g ∈ b, g.letter ≠ some "") →
      List.Forall₂ (fun x y => x.letter = none ∨ y.letter = none) a b →
      (mergeGrades a b).map (·.letter) =
        List.zipWith (fun x y => x.letter.or y.letter) a b ∧
      (mergeGrades a b).map (·.letter) = (mergeGrades b a).map (·.letter) := by
  intro a
  induction a with
  | nil =>
    intro b _ _ hd
    cases hd
    exact ⟨rfl, rfl⟩
  | cons x as ih =>
    intro b ha hb hd
    cases hd with
    | cons hxy htail =>
      rename_i y bs
      obtain ⟨ih1, ih2⟩ := ih bs
        (fun g hg => ha g (List.mem_cons_of_mem x hg))
        (fun g hg => hb g (List.mem_cons_of_mem y hg))
        htail
      have hxe : x.letter ≠ some "" := ha x (List.mem_cons_self _ _)
      have hye : y.letter ≠ some "" := hb y (List.mem_cons_self _ _)
      have hhead := mergeLetter_or hye hxy
      have hhead' := mergeLetter_or hxe
        (Or.symm hxy)
      have hcomm : x.letter.or y.letter = y.letter.or x.letter := by
        rcases hxy with h | h <;> simp [h, Option.or_none]
      constructor
      · simp only [mergeGrades, List.zipWith_cons_cons, List.map_cons]
        exact List.cons_eq_cons.mpr ⟨hhead, ih1⟩
      · simp only [mergeGrades, List.zipWith_cons_cons, List.map_cons]
        refine List.cons_eq_cons.mpr ⟨?_, ih2⟩
        rw [hhead, hhead', hcomm]

/-- C6, witness: the merge of the BIOLOGY grades (A, B, null, null) with
the disjoint grades (null, null, B+, null) unions all slots, in either
order. -/
theorem c6_witness :
    (mergeGrades
        [{ quarter := "Q1", letter := some "A", isCurrent := false },
         { quarter := "Q2", letter := some "B", isCurrent := false },
         { quarter := "Q3", letter := none, isCurrent := true },
         { quarter := "Q4", letter := none, isCurrent := false }]
        [{ quarter := "Q1", letter := none, isCurrent := false },
         { quarter := "Q2", letter := none, isCurrent := false },
         { quarter := "Q3", letter := some "B+", isCurrent := true },
         { quarter := "Q4", letter := none, isCurrent := false }]).map (·.letter) =
      [some "A", some "B", some "B+", none] := by
  have h := c6_merge_disjoint_union
    [{ quarter := "Q1", letter := some "A", isCurrent := false },
     { quarter := "Q2", letter := some "B", isCurrent := false },
     { quarter := "Q3", letter := none, isCurrent := true },
     { quarter := "Q4", letter := none, isCurrent := false }]
    [{ quarter := "Q1", letter := none, isCurrent := false },
     { quarter := "Q2", letter := none, isCurrent := false },
     { quarter := "Q3", letter := some "B+", isCurrent := true },
     { quarter := "Q4", letter := none, isCurrent := false }]
    (by decide) (by decide)
    (by refine List.Forall₂.cons (Or.inr rfl) ?_
        refine List.Forall₂.cons (Or.inr rfl) ?_
        refine List.Forall₂.cons (Or.inl rfl) ?_
        exact List.Forall₂.cons (Or.inl rfl) List.Forall₂.nil)
  rw [h.1]
  decide

/-- C7.  The position-join tolerances are exact: a grade cell is grouped
into a course block's row precisely when its vertical distance from the
block is under 40px, and a quarter column receives a grade precisely when
some row cell's horizontal center is within 30px of the quarter header's
center, the assigned cell itself lying within that tolerance. -/
theorem c7_position_tolerances :
    (∀ (cells : List GradeCell) (y : ℤ) (c : GradeCell),
      c ∈ rowCellsFor cells y ↔ c ∈ cells ∧ |c.y - y| < 40) ∧
    (∀ (row : List GradeCell) (qx : ℤ),
      ((assignFor row qx).isSome ↔ ∃ d ∈ row, |d.centerX - qx| < 30) ∧
      (∀ d, assignFor row qx = some d → d ∈ row ∧ |d.centerX - qx| < 30)) := by
  constructor
  · intro cells y c
    unfold rowCellsFor
    rw [List.mem_filter]
    simp
  · intro row qx
    constructor
    · unfold assignFor
      rw [List.find?_isSome]
      simp
    · intro d hd
      refine ⟨List.mem_of_find?_eq_some hd, ?_⟩
      have := List.find?_some hd
      simpa using this

/-- C7, witness: at vertical distance 35 a cell is grouped, at 45 it is
not; at horizontal distance 5 a cell is assigned, at 40 it is not. -/
theorem c7_witness :
    (⟨"A", 535, 300, 305, ""⟩ : GradeCell) ∈
      rowCellsFor [⟨"A", 535, 300, 305, ""⟩, ⟨"B", 545, 340, 350, ""⟩] 500 ∧
    (⟨"B", 545, 340, 350, ""⟩ : GradeCell) ∉
      rowCellsFor [⟨"A", 535, 300, 305, ""⟩, ⟨"B", 545, 340, 350, ""⟩] 500 ∧
    (assignFor [(⟨"A", 535, 300, 305, ""⟩ : GradeCell)] 310).isSome = true ∧
    (assignFor [(⟨"B", 545, 340, 350, ""⟩ : GradeCell)] 310).isSome = false := by
  refine ⟨?_, ?_, ?_, ?_⟩
  · exact (c7_position_tolerances.1 _ 500 _).mpr ⟨by decide, by decide⟩
  · intro hmem
    have h := (c7_position_tolerances.1
      [⟨"A", 535, 300, 305, ""⟩, ⟨"B", 545, 340, 350, ""⟩] 500 ⟨"B", 545, 340, 350, ""⟩).mp hmem
    have : ¬(|(545 : ℤ) - 500| < 40) := by decide
    exact this h.2
  · exact ((c7_position_tolerances.2 [⟨"A", 535, 300, 305, ""⟩] 310).1.mpr
      ⟨_, List.mem_singleton_self _, by decide⟩)
  · by_contra hne
    have hs : (assignFor [(⟨"B", 545, 340, 350, ""⟩ : GradeCell)] 310).isSome = true := by
      revert hne
      cases assignFor [(⟨"B", 545, 340, 350, ""⟩ : GradeCell)] 310 <;> simp
    obtain ⟨d, hdm, hdlt⟩ := (c7_position_tolerances.2 [⟨"B", 545, 340, 350, ""⟩] 310).1.mp hs
    rw [List.mem_singleton.mp hdm] at hdlt
    exact absurd hdlt (by decide)

/-! ### Graceful-empty support -/

/-- A whitespace character is not a letter-grade initial. -/
theorem isAF_false_of_jsWs {c : Char} (h : jsWs c = true) : isAF c = false := by
  simp only [jsWs, Bool.or_eq_true, beq_iff_eq] at h
  rcases h with ((((rfl | rfl) | rfl) | rfl) | rfl) | rfl <;> decide

/-- A whitespace character is not a plus or minus sign. -/
theorem signs_false_of_jsWs {c : Char} (h : jsWs c = true) :
    (c == '+' || c == '-') = false := by
  simp only [jsWs, Bool.or_eq_true, beq_iff_eq] at h
  rcases h with ((((rfl | rfl) | rfl) | rfl) | rfl) | rfl <;> decide

/-- A string matching `^[A-F][+-]?$` contains no whitespace, so stripping
whitespace from it is the identity. -/
theorem stripWs_of_gradeExact {s : String} (h : gradeExact s = true) :
    stripWs s = s := by
  obtain ⟨l⟩ := s
  unfold gradeExact at h
  unfold stripWs
  rcases l with _ | ⟨c, _ | ⟨d, _ | ⟨e, rest⟩⟩⟩
  · rfl
  · simp only at h
    have hws : jsWs c = false := by
      cases hw : jsWs c
      · rfl
      · rw [isAF_false_of_jsWs hw] at h; exact absurd h (by simp)
    simp [List.filter, hws]
  · simp only [Bool.and_eq_true] at h
    have hc : jsWs c = false := by
      cases hw : jsWs c
      · rfl
      · rw [isAF_false_of_jsWs hw] at h; exact absurd h.1 (by simp)
    have hd : jsWs d = false := by
      cases hw : jsWs d
      · rfl
      · rw [signs_false_of_jsWs hw] at h; exact absurd h.2 (by simp)
    simp [List.filter, hc, hd]
  · exact absurd h (by simp)

/-- When no td cell on the page has a grade-looking cleaned text, every
row fails strategy 2. -/
theorem strat2Row_none {p : DPage} {t : DTable} {row : DRow}
    (hG : ∀ c ∈ allTds p, gradeExact (stripWs (trimStr c.text)) = false)
    (ht : t ∈ p.tables) (hr : row ∈ t.rows) :
    strat2Row row = none := by
  have hsub : ∀ c ∈ rowTds row, c ∈ allTds p := fun c hcm =>
    List.mem_flatMap.mpr ⟨t, ht, List.mem_flatMap.mpr ⟨row, hr, hcm⟩⟩
  unfold strat2Row
  dsimp only
  split
  · split
    · have hnone : ∀ c ∈ (rowTds row).drop 1,
          (let u := trimStr c.text
           if gradeExact u = true then some u else none) = none := by
        intro c hc
        have hcm : c ∈ allTds p := hsub c (List.mem_of_mem_drop hc)
        have hflat := hG c hcm
        by_cases hg : gradeExact (trimStr c.text) = true
        · rw [stripWs_of_gradeExact hg] at hflat
          exact absurd hg (by simp [hflat])
        · simp only [hg]
          simp
      rw [List.findSome?_eq_none_iff.mpr hnone]
    · rfl
  · rfl

/-- When no table passes the Q1/Q2 header test, strategy 1 finds nothing. -/
theorem strategy1_nil {p : DPage}
    (hT : ∀ t ∈ p.tables, headerHasQ1Q2 t = false) : strategy1 p = [] := by
  unfold strategy1
  rw [List.flatMap_eq_nil_iff]
  intro t ht
  simp [hT t ht]

/-- When no table is a 3-row course info block, strategy 3 finds nothing. -/
theorem strategy3_nil {p : DPage}
    (hB : ∀ t ∈ p.tables, courseBlockOf t = none) : strategy3 p = [] := by
  unfold strategy3 collectCourseBlocks
  rw [List.filterMap_eq_nil_iff.mpr hB]
  rfl

/-- C8, counterexample.  A page with zero tables (hence zero matching
tables and zero grade-letter cells) whose body text happens to match the
opportunistic student-name regex yields a non-empty `studentName`,
refuting the claim that every such page produces all four fields with
both strings empty. -/
theorem c8_counterexample :
    cex8Page.tables = [] ∧ allTds cex8Page = [] ∧
    (extractGradesData cex8Page).courses = [] ∧
    (extractGradesData cex8Page).studentName = "JOHN Q PUBLIC" ∧
    (extractGradesData cex8Page).studentName ≠ "" := by
  refine ⟨rfl, rfl, by decide, by decide, by decide⟩

/-- C8, amended.  For a page with no Q1/Q2-header table, no 3-row course
info block, and no grade-looking td cell, extraction returns empty course
and missing-assignment lists and never throws; the student name and
school are additionally empty exactly when the body text matches neither
opportunistic regex. -/
theorem c8_graceful_empty :
    ∀ p : DPage,
      (∀ t ∈ p.tables, headerHasQ1Q2 t = false) →
      (∀ t ∈ p.tables, courseBlockOf t = none) →
      (∀ c ∈ allTds p, gradeExact (stripWs (trimStr c.text)) = false) →
      findName p.bodyText.data = none →
      findSchool p.bodyText.data = none →
      extractGradesData p =
        { courses := [], missingAssignments := [], studentName := "", school := "" } := by
  intro p hT hB hG hN hS
  have h1 : strategy1 p = [] := strategy1_nil hT
  have h2 : strategy2 p = [] := by
    unfold strategy2
    rw [List.flatMap_eq_nil_iff]
    intro t ht
    rw [List.filterMap_eq_nil_iff]
    intro row hr
    exact strat2Row_none hG ht hr
  have h3 : strategy3 p = [] := strategy3_nil hB
  simp [extractGradesData, h1, h2, h3, hN, hS]

/-- C8, witness for the amended theorem at a concrete empty page. -/
theorem c8_witness :
    extractGradesData { tables := [], bodyText := "" } =
      { courses := [], missingAssignments := [], studentName := "", school := "" } := by
  exact c8_graceful_empty { tables := [], bodyText := "" }
    (by intro t ht; exact absurd ht (by simp))
    (by intro t ht; exact absurd ht (by simp))
    (by intro c hc; exact absurd hc (by simp [allTds]))
    rfl rfl

/-! ### Queue discipline -/

/-- Every step of the queue discipline preserves the invariant. -/
theorem qinv_step (s : QState) (e : QEvent) (h : qinv s) : qinv (qstep s e) := by
  obtain ⟨hr, ha, hip⟩ := h
  cases e with
  | arrive id =>
    cases hp : s.inProgress with
    | true =>
      simp only [qinv, qstep, hp, if_true]
      refine ⟨hr, ?_, ?_⟩
      · rw [ha, List.append_assoc]
      · intro hfalse
        exact absurd hfalse (by simp)
    | false =>
      obtain ⟨hqe, hre⟩ := hip hp
      simp only [qinv, qstep, hp, Bool.false_eq_true, if_false]
      refine ⟨by simp, ?_, ?_⟩
      · rw [ha, hqe]
        simp
      · intro hfalse
        exact absurd hfalse (by simp)
  | release =>
    cases hq : s.queue with
    | nil =>
      simp only [qinv, qstep, hq]
      exact ⟨by simp, by rw [ha, hq], by simp⟩
    | cons hd tl =>
      simp only [qinv, qstep, hq]
      refine ⟨by simp, ?_, ?_⟩
      · rw [ha, hq]
        simp
      · intro hfalse
        exact absurd hfalse (by simp)

/-- The invariant holds after any trace from an invariant-satisfying
state. -/
theorem qinv_runFrom : ∀ (es : List QEvent) (s : QState), qinv s → qinv (qrunFrom s es)
  | [], s, h => h
  | e :: es, s, h => by
    have h1 := qinv_step s e h
    exact qinv_runFrom es (qstep s e) h1

/-- C9.  For every sequence of arrivals and releases, the operation queue
serializes strictly: at most one operation runs at any point (so a later
caller's page interactions cannot overlap an earlier caller's pipeline,
whose release happens in its `finally` block), and the arrival order is
exactly the grant order followed by the still-queued operations in FIFO
order. -/
theorem c9_queue_serialization :
    ∀ es : List QEvent,
      (qrun es).running.length ≤ 1 ∧
      (qrun es).arrived = (qrun es).granted ++ (qrun es).queue := by
  intro es
  have h := qinv_runFrom es qinit ⟨by simp [qinit], rfl, fun _ => ⟨rfl, rfl⟩⟩
  exact ⟨h.1, h.2.1⟩

/-! ### Quarter label shape -/

/-- Merging preserves the quarter-label shape of a grades list. -/
theorem mergeQuarters_pres {x c : SkywardCourse}
    (hx : x.grades.map (·.quarter) = quarterNames)
    (hc : c.grades.map (·.quarter) = quarterNames) :
    ({ x with grades := mergeGrades x.grades c.grades } : SkywardCourse).grades.map (·.quarter) =
      quarterNames := by
  have hlx : x.grades.length = quarterNames.length := by
    rw [← hx, List.length_map]
  have hlc : c.grades.length = quarterNames.length := by
    rw [← hc, List.length_map]
  rw [mergeGrades_map_quarter (hlx.trans hlc.symm)]
  exact hx

/-- C10.  Every course record produced by any of the three strategies, by
the course-only fallback, or by the full extraction has a grades list of
exactly four entries labeled Q1, Q2, Q3, Q4 in that order. -/
theorem c10_quarter_labels :
    ∀ p : DPage,
      (∀ c ∈ strategy1 p, c.grades.map (·.quarter) = quarterNames) ∧
      (∀ c ∈ strategy2 p, c.grades.map (·.quarter) = quarterNames) ∧
      (∀ c ∈ strategy3 p, c.grades.map (·.quarter) = quarterNames) ∧
      (∀ c ∈ fallbackCourses p.tables, c.grades.map (·.quarter) = quarterNames) ∧
      (∀ c ∈ (extractGradesData p).courses, c.grades.map (·.quarter) = quarterNames) := by
  intro p
  have hs1 : ∀ c ∈ strategy1 p, c.grades.map (·.quarter) = quarterNames := by
    intro c hc
    obtain ⟨h, row, hrow⟩ := mem_strategy1 hc
    obtain ⟨l1, l2, l3, l4, hg⟩ := strat1Row_grades hrow
    rw [hg]
    rfl
  have hs2 : ∀ c ∈ strategy2 p, c.grades.map (·.quarter) = quarterNames := by
    intro c hc
    obtain ⟨row, hrow⟩ := mem_strategy2 hc
    obtain ⟨g, hg⟩ := strat2Row_grades hrow
    rw [hg]
    rfl
  have hs3 : ∀ c ∈ strategy3 p, c.grades.map (·.quarter) = quarterNames := by
    intro c hc
    unfold strategy3 at hc
    refine foldl_mergeInto_forall
      (P := fun c => c.grades.map (·.quarter) = quarterNames)
      ?_ _ ?_ _ _ (by simp) c hc
    · exact fun x c hx hcq => mergeQuarters_pres hx hcq
    · exact fun b => rfl
  have hfall : ∀ c ∈ fallbackCourses p.tables, c.grades.map (·.quarter) = quarterNames := by
    intro c hc
    unfold fallbackCourses at hc
    obtain ⟨t, _, hmap⟩ := List.mem_filterMap.mp hc
    obtain ⟨b, _, rfl⟩ := Option.map_eq_some'.mp hmap
    rfl
  refine ⟨hs1, hs2, hs3, hfall, ?_⟩
  intro c hc
  unfold extractGradesData at hc
  dsimp only at hc
  split at hc
  · exact hs1 c hc
  · split at hc
    · exact hs2 c hc
    · exact hs3 c hc

/-- C10, witness at the concrete fixture: the first extracted course has
quarters Q1-Q4 in order. -/
theorem c10_witness :
    ((extractGradesData fixture1).courses.getD 0 default).grades.map (·.quarter) =
      quarterNames := by
  exact (c10_quarter_labels fixture1).2.2.2.2
    ((extractGradesData fixture1).courses.getD 0 default) (by decide)

/-- C4, witness for the amended theorem at concrete inputs. -/
theorem c4_witness :
    (scrapeGradesModel { browser := some 5 } alwaysAlive 1 true fixture1 true).1.browser = none ∧
    ensureBrowserStep { browser := none } alwaysAlive 3 = { browser := some 3 } ∧
    ensureBrowserStep { browser := some 7 } alwaysAlive 3 = { browser := some 7 } := by
  refine ⟨(c4_browser_closed_after_success { browser := some 5 } alwaysAlive 1 fixture1 true).1 (by decide),
    (c4_browser_closed_after_success { browser := some 5 } alwaysAlive 1 fixture1 true).2.1 alwaysAlive 3,
    (c4_browser_closed_after_success { browser := some 5 } alwaysAlive 1 fixture1 true).2.2 7 alwaysAlive 3 (by decide)⟩

end Skyward
